import Mathlib

/-!
Verification development for `scripts/transcript_service.py`: a shallow
embedding of the YouTube video-id extractor and the transcript-fetch
wrapper, with theorems checking the specified behaviour.
-/

namespace TranscriptService

/-- Membership in the regex character class `[a-zA-Z0-9_-]`. -/
def isIdChar (c : Char) : Bool :=
  ('a' ≤ c && c ≤ 'z') || ('A' ≤ c && c ≤ 'Z') || ('0' ≤ c && c ≤ '9') ||
    c == '_' || c == '-'

/-- ASCII whitespace stripped by Python's `str.strip()`. -/
def isPySpace (c : Char) : Bool :=
  c == ' ' || c == '\t' || c == '\n' || c == '\r' || c == '\x0b' || c == '\x0c'

/-- Python `str.strip()` on a character list: remove leading and trailing
whitespace. -/
def pyStrip (l : List Char) : List Char :=
  ((l.dropWhile isPySpace).reverse.dropWhile isPySpace).reverse

/-- The full-match test `re.match(r'^[a-zA-Z0-9_-]{11}$', s)`: eleven
identifier characters spanning the whole string.  Python's `$` also matches
just before a single trailing newline, so a string of eleven identifier
characters followed by `\n` matches as well (unreachable after `strip`,
but kept for faithfulness). -/
def matchesIdExact (t : List Char) : Bool :=
  (t.length == 11 && t.all isIdChar) ||
    (t.length == 12 && (t.take 11).all isIdChar && t.getLast? == some '\n')

/-- The alternatives of the search regex
`(?:v=|youtu\.be/|embed/|v/|shorts/)([a-zA-Z0-9_-]{11})`, in the order the
regex engine tries them. -/
def markers : List (List Char) :=
  [String.toList "v=", String.toList "youtu.be/", String.toList "embed/",
    String.toList "v/", String.toList "shorts/"]

/-- Try one alternative of the search regex at the start of `u`: the marker
`m` must be a literal prefix and must be followed immediately by eleven
identifier characters, which are captured. -/
def tryMarker (u : List Char) (m : List Char) : Option (List Char) :=
  if m.isPrefixOf u then
    let v := (u.drop m.length).take 11
    if v.length == 11 && v.all isIdChar then some v else none
  else none

/-- Try the whole alternation at the start of `u`: alternatives are tried in
the regex's left-to-right order. -/
def tryAt (u : List Char) : Option (List Char) :=
  markers.findSome? (tryMarker u)

/-- `re.search` of the URL pattern: scan positions left to right, returning
the captured group of the first position where the pattern matches. -/
def searchMarkers : List Char → Option (List Char)
  | [] => none
  | c :: rest =>
    match tryAt (c :: rest) with
    | some v => some v
    | none => searchMarkers rest

/-- Embedding of `extract_video_id`: strip whitespace, accept a bare
eleven-character id via the full-match regex, otherwise search for a URL
marker followed by eleven identifier characters. -/
def extract_video_id (s : String) : Option String :=
  if matchesIdExact (pyStrip s.toList) then some (String.mk (pyStrip s.toList))
  else (searchMarkers (pyStrip s.toList)).map String.mk

/-- One caption fragment returned by the transcript collaborator; the
program only reads its `text` field. -/
structure Fragment where
  text : String
deriving DecidableEq, Repr

/-- Outcome of the external collaborator's `get_transcript` call: an
ordered fragment list, the `TranscriptsDisabled` exception, or any other
exception carrying its string form `str(e)`. -/
inductive CollabResult where
  | ok (fragments : List Fragment)
  | disabled
  | err (msg : String)
deriving DecidableEq, Repr

/-- The result envelope the program serializes: success with transcript
and method tag, or failure with an error message. -/
inductive Envelope where
  | success (transcript : String) (method : String)
  | failure (error : String)
deriving DecidableEq, Repr

/-- Python `sep.join(xs)`. -/
def pyJoin (sep : String) : List String → String
  | [] => ""
  | [x] => x
  | x :: y :: xs => x ++ sep ++ pyJoin sep (y :: xs)

/-- Embedding of the `try`-block of `main`, lines 37-48: call the
collaborator, join fragment texts with single spaces on success, translate
the two exception classes to failure envelopes. -/
def fetchTranscript (collab : String → CollabResult) (videoId : String) :
    Envelope :=
  match collab videoId with
  | CollabResult.ok frags =>
      Envelope.success (pyJoin " " (frags.map Fragment.text))
        "youtube-transcript-api"
  | CollabResult.disabled =>
      Envelope.failure "Transcript is disabled on this video"
  | CollabResult.err msg => Envelope.failure msg

/-- Embedding of `main`, parameterized over the extractor so that theorems
can state which inputs never reach it.  `args` is `sys.argv[1:]`; the
Python guard `if not video_id` is falsy both for `None` and for the empty
string. -/
def mainGen (ext : String → Option String) (collab : String → CollabResult)
    (args : List String) : Envelope :=
  match args with
  | [] => Envelope.failure "No video URL or ID provided"
  | url :: _ =>
    match ext url with
    | none => Envelope.failure "Invalid YouTube URL or ID"
    | some vid =>
      if vid = "" then Envelope.failure "Invalid YouTube URL or ID"
      else fetchTranscript collab vid

/-- The program's `main` with the real extractor. -/
def main (collab : String → CollabResult) (args : List String) : Envelope :=
  mainGen extract_video_id collab args

/-- JSON values the program can print (only strings, booleans and objects
occur). -/
inductive Json where
  | jstr (s : String)
  | jbool (b : Bool)
  | jobj (fields : List (String × Json))

/-- Whether a JSON value is an object. -/
def Json.isObj : Json → Bool
  | Json.jobj _ => true
  | _ => false

/-- The JSON object `json.dumps` builds for each envelope. -/
def envelopeJson : Envelope → Json
  | Envelope.success t m =>
      Json.jobj [("success", Json.jbool true), ("transcript", Json.jstr t),
        ("method", Json.jstr m)]
  | Envelope.failure e =>
      Json.jobj [("success", Json.jbool false), ("error", Json.jstr e)]

/-- Whether the `from youtube_transcript_api import ...` at lines 6-10
succeeded; on success it yields the collaborator. -/
inductive ImportStatus where
  | available (collab : String → CollabResult)
  | missing

/-- The whole process: the import guard, then `main`; yields the list of
JSON objects printed to stdout and the exit status. -/
def programRun (imp : ImportStatus) (args : List String) :
    List Json × Nat :=
  match imp with
  | ImportStatus.missing =>
      ([envelopeJson (Envelope.failure "youtube-transcript-api not installed")], 1)
  | ImportStatus.available collab =>
      ([envelopeJson (main collab args)], 0)

/-! Helper lemmas about the identifier alphabet and stripping. -/

lemma idChar_not_space {c : Char} (h : isIdChar c = true) : isPySpace c = false := by
  by_contra hs
  rw [Bool.not_eq_false] at hs
  have hmem : c = ' ' ∨ c = '\t' ∨ c = '\n' ∨ c = '\r' ∨ c = '\x0b' ∨ c = '\x0c' := by
    simpa [isPySpace, or_assoc] using hs
  rcases hmem with h1 | h1 | h1 | h1 | h1 | h1 <;> subst h1 <;> exact absurd h (by decide)

lemma dropWhile_eq_self_of_none {α : Type} (p : α → Bool) (l : List α)
    (h : ∀ x ∈ l, p x = false) : l.dropWhile p = l := by
  cases l with
  | nil => rfl
  | cons a l => exact List.dropWhile_cons_of_neg (by simp [h a (List.mem_cons_self a l)])

lemma pyStrip_eq_self_of_all_id {l : List Char} (h : ∀ c ∈ l, isIdChar c = true) :
    pyStrip l = l := by
  unfold pyStrip
  rw [dropWhile_eq_self_of_none _ _ (fun c hc => idChar_not_space (h c hc))]
  rw [dropWhile_eq_self_of_none _ _
    (fun c hc => idChar_not_space (h c (List.mem_reverse.mp hc)))]
  exact List.reverse_reverse l

lemma tryMarker_eq_none_of_all_id {u : List Char} (m : List Char)
    (hu : ∀ c ∈ u, isIdChar c = true) (hm : ∃ c ∈ m, isIdChar c = false) :
    tryMarker u m = none := by
  unfold tryMarker
  split
  · exfalso
    rename_i hp
    obtain ⟨c, hcm, hci⟩ := hm
    have hcu : c ∈ u := (List.isPrefixOf_iff_prefix.mp hp).sublist.subset hcm
    rw [hu c hcu] at hci
    exact absurd hci (by decide)
  · rfl

lemma tryAt_eq_none_of_all_id {u : List Char} (hu : ∀ c ∈ u, isIdChar c = true) :
    tryAt u = none := by
  have h1 : tryMarker u ['v', '='] = none :=
    tryMarker_eq_none_of_all_id _ hu ⟨'=', by decide, by decide⟩
  have h2 : tryMarker u ['y', 'o', 'u', 't', 'u', '.', 'b', 'e', '/'] = none :=
    tryMarker_eq_none_of_all_id _ hu ⟨'.', by decide, by decide⟩
  have h3 : tryMarker u ['e', 'm', 'b', 'e', 'd', '/'] = none :=
    tryMarker_eq_none_of_all_id _ hu ⟨'/', by decide, by decide⟩
  have h4 : tryMarker u ['v', '/'] = none :=
    tryMarker_eq_none_of_all_id _ hu ⟨'/', by decide, by decide⟩
  have h5 : tryMarker u ['s', 'h', 'o', 'r', 't', 's', '/'] = none :=
    tryMarker_eq_none_of_all_id _ hu ⟨'/', by decide, by decide⟩
  simp [tryAt, markers, List.findSome?_cons, h1, h2, h3, h4, h5]

lemma searchMarkers_eq_none_of_all_id {t : List Char}
    (h : ∀ c ∈ t, isIdChar c = true) : searchMarkers t = none := by
  induction t with
  | nil => rfl
  | cons c rest ih =>
    simp only [searchMarkers]
    rw [tryAt_eq_none_of_all_id h]
    exact ih (fun x hx => h x (List.mem_cons_of_mem c hx))

lemma matchesIdExact_of_all_id {l : List Char} (hall : ∀ c ∈ l, isIdChar c = true) :
    matchesIdExact l = true ↔ l.length = 11 := by
  unfold matchesIdExact
  constructor
  · intro hx
    rw [Bool.or_eq_true] at hx
    rcases hx with hx | hx
    · simp only [Bool.and_eq_true, beq_iff_eq] at hx
      exact hx.1
    · exfalso
      simp only [Bool.and_eq_true, beq_iff_eq] at hx
      obtain ⟨-, hlast⟩ := hx
      have hmem : '\n' ∈ l := List.mem_of_getLast?_eq_some hlast
      exact absurd (hall '\n' hmem) (by decide)
  · intro h11
    rw [Bool.or_eq_true]
    left
    simp only [Bool.and_eq_true, beq_iff_eq]
    exact ⟨h11, List.all_eq_true.mpr hall⟩

/-- C1: on inputs made only of identifier-alphabet characters, `extract`
returns the input unchanged exactly when its length is 11, and returns
`none` for every other length. -/
theorem extract_on_id_alphabet (s : String) (h : s.data.all isIdChar = true) :
    ((extract_video_id s = some s) ↔ s.length = 11) ∧
    (s.length ≠ 11 → extract_video_id s = none) := by
  have hall : ∀ c ∈ s.data, isIdChar c = true := List.all_eq_true.mp h
  have hstrip : pyStrip s.toList = s.data := pyStrip_eq_self_of_all_id hall
  have hsearch : searchMarkers s.data = none := searchMarkers_eq_none_of_all_id hall
  have hform : extract_video_id s =
      if matchesIdExact s.data then some s else (searchMarkers s.data).map String.mk := by
    unfold extract_video_id
    rw [hstrip]
  have hlen : s.length = s.data.length := rfl
  have aux : s.length ≠ 11 → extract_video_id s = none := by
    intro hne
    rw [hform, if_neg, hsearch]
    · rfl
    · intro hx
      exact hne (hlen.trans ((matchesIdExact_of_all_id hall).mp hx))
  refine ⟨⟨fun he => ?_, fun h11 => ?_⟩, aux⟩
  · by_contra hne
    rw [aux hne] at he
    exact Option.noConfusion he
  · rw [hform, if_pos ((matchesIdExact_of_all_id hall).mpr (hlen ▸ h11))]

/-- Witness for C1 at the concrete input "abcdefghijk". -/
theorem extract_on_id_alphabet_witness :
    (("abcdefghijk" : String).data.all isIdChar = true) ∧
    (((extract_video_id "abcdefghijk" = some "abcdefghijk") ↔
        ("abcdefghijk" : String).length = 11) ∧
      (("abcdefghijk" : String).length ≠ 11 → extract_video_id "abcdefghijk" = none)) :=
  ⟨by decide, extract_on_id_alphabet "abcdefghijk" (by decide)⟩

/-! Characterization of the URL-marker search as a leftmost-match scan. -/

/-- Spec-level statement that the search pattern matches at position `i`
of `t` with captured group `v`: some marker, immediately followed by the
eleven identifier characters `v`, starts at position `i`. -/
def markerMatchAt (t : List Char) (i : Nat) (v : List Char) : Prop :=
  ∃ m, m ∈ markers ∧ (m ++ v) <+: t.drop i ∧ v.length = 11 ∧ v.all isIdChar = true

lemma tryMarker_sound {u m v : List Char} (h : tryMarker u m = some v) :
    (m ++ v) <+: u ∧ v.length = 11 ∧ v.all isIdChar = true := by
  simp only [tryMarker] at h
  split at h
  · rename_i hp
    split at h
    · rename_i hv
      injection h with h
      subst h
      simp only [Bool.and_eq_true, beq_iff_eq] at hv
      refine ⟨?_, hv.1, hv.2⟩
      obtain ⟨w, hw⟩ := List.isPrefixOf_iff_prefix.mp hp
      subst hw
      rw [List.drop_left, List.prefix_append_right_inj]
      exact List.take_prefix _ _
    · exact Option.noConfusion h
  · exact Option.noConfusion h

lemma tryMarker_complete {u m v : List Char} (hm : (m ++ v) <+: u)
    (h11 : v.length = 11) (hid : v.all isIdChar = true) :
    tryMarker u m = some v := by
  obtain ⟨w, hw⟩ := hm
  have hu : u = m ++ (v ++ w) := by rw [← hw, List.append_assoc]
  subst hu
  have hpre : m.isPrefixOf (m ++ (v ++ w)) = true :=
    List.isPrefixOf_iff_prefix.mpr (List.prefix_append m (v ++ w))
  have hcond : (((m ++ (v ++ w)).drop m.length).take 11).length == 11 &&
      (((m ++ (v ++ w)).drop m.length).take 11).all isIdChar := by
    rw [List.drop_left, List.take_left' h11]
    simp [h11, hid]
  simp only [tryMarker, hpre, if_true, hcond, if_pos]
  rw [List.drop_left, List.take_left' h11]

lemma marker_unique {m1 m2 u : List Char} (hm1 : m1 ∈ markers) (hm2 : m2 ∈ markers)
    (h1 : m1 <+: u) (h2 : m2 <+: u) : m1 = m2 := by
  have hor := List.prefix_or_prefix_of_prefix h1 h2
  simp only [markers, List.mem_cons, List.not_mem_nil, or_false] at hm1 hm2
  rcases hm1 with h | h | h | h | h <;> rcases hm2 with g | g | g | g | g <;>
    subst h <;> subst g <;>
    first
      | rfl
      | (rcases hor with hp | hp <;> exact absurd hp (by decide))

lemma markerMatch_unique {u v v' : List Char} (h : markerMatchAt u 0 v)
    (h' : markerMatchAt u 0 v') : v = v' := by
  obtain ⟨m, hm, hpre, h11, -⟩ := h
  obtain ⟨m', hm', hpre', h11', -⟩ := h'
  rw [List.drop_zero] at hpre hpre'
  have hmm : m = m' := marker_unique hm hm'
    ((List.prefix_append m v).trans hpre) ((List.prefix_append m' v').trans hpre')
  subst hmm
  rcases List.prefix_or_prefix_of_prefix hpre hpre' with hp | hp
  · rw [List.prefix_append_right_inj] at hp
    exact hp.sublist.eq_of_length (h11.trans h11'.symm)
  · rw [List.prefix_append_right_inj] at hp
    exact (hp.sublist.eq_of_length (h11'.trans h11.symm)).symm

lemma tryAt_sound {u v : List Char} (h : tryAt u = some v) :
    ∃ m, m ∈ markers ∧ tryMarker u m = some v := by
  obtain ⟨m, hm, hsome⟩ := List.exists_of_findSome?_eq_some h
  exact ⟨m, hm, hsome⟩

lemma tryAt_eq_some_iff {u v : List Char} :
    tryAt u = some v ↔ markerMatchAt u 0 v := by
  constructor
  · intro h
    obtain ⟨m, hm, hsome⟩ := tryAt_sound h
    obtain ⟨hpre, h11, hid⟩ := tryMarker_sound hsome
    exact ⟨m, hm, hpre, h11, hid⟩
  · intro h
    obtain ⟨m, hm, hpre, h11, hid⟩ := h
    rw [List.drop_zero] at hpre
    have hsome : tryMarker u m = some v := tryMarker_complete hpre h11 hid
    cases htry : tryAt u with
    | none =>
      exfalso
      have hnone := List.findSome?_eq_none_iff.mp htry m hm
      rw [hsome] at hnone
      exact Option.noConfusion hnone
    | some v' =>
      obtain ⟨m', hm', hsome'⟩ := tryAt_sound htry
      obtain ⟨hpre', h11', hid'⟩ := tryMarker_sound hsome'
      have hvv : v' = v := markerMatch_unique
        ⟨m', hm', hpre', h11', hid'⟩ ⟨m, hm, hpre, h11, hid⟩
      rw [hvv]

lemma markerMatchAt_cons_succ {c : Char} {rest : List Char} {i : Nat} {v : List Char} :
    markerMatchAt (c :: rest) (i + 1) v ↔ markerMatchAt rest i v := Iff.rfl

lemma markerMatchAt_nil {i : Nat} {v : List Char} : ¬ markerMatchAt [] i v := by
  rintro ⟨m, -, hpre, h11, -⟩
  rw [List.drop_nil] at hpre
  have hle := hpre.length_le
  simp only [List.length_append, h11, List.length_nil] at hle
  omega

lemma searchMarkers_eq_none_iff {t : List Char} :
    searchMarkers t = none ↔ ∀ i v, ¬ markerMatchAt t i v := by
  induction t with
  | nil =>
    exact ⟨fun _ i v => markerMatchAt_nil, fun _ => rfl⟩
  | cons c rest ih =>
    simp only [searchMarkers]
    cases htry : tryAt (c :: rest) with
    | some v =>
      constructor
      · intro h
        exact Option.noConfusion h
      · intro h
        exact absurd (tryAt_eq_some_iff.mp htry) (h 0 v)
    | none =>
      constructor
      · intro h i v
        cases i with
        | zero =>
          intro hmv
          have hv := tryAt_eq_some_iff.mpr hmv
          rw [htry] at hv
          exact Option.noConfusion hv
        | succ i =>
          rw [markerMatchAt_cons_succ]
          exact ih.mp h i v
      · intro h
        apply ih.mpr
        intro i v
        rw [← markerMatchAt_cons_succ (c := c)]
        exact h (i + 1) v

lemma searchMarkers_first_match {t v : List Char} (h : searchMarkers t = some v) :
    ∃ i, markerMatchAt t i v ∧ ∀ j w, markerMatchAt t j w → i ≤ j := by
  induction t with
  | nil => exact Option.noConfusion h
  | cons c rest ih =>
    simp only [searchMarkers] at h
    cases htry : tryAt (c :: rest) with
    | some v0 =>
      rw [htry] at h
      change some v0 = some v at h
      injection h with h
      subst h
      exact ⟨0, tryAt_eq_some_iff.mp htry, fun j w _ => Nat.zero_le j⟩
    | none =>
      rw [htry] at h
      change searchMarkers rest = some v at h
      obtain ⟨i, hmi, hmin⟩ := ih h
      refine ⟨i + 1, markerMatchAt_cons_succ.mpr hmi, ?_⟩
      intro j w hjw
      cases j with
      | zero =>
        exfalso
        have hv := tryAt_eq_some_iff.mpr hjw
        rw [htry] at hv
        exact Option.noConfusion hv
      | succ j =>
        exact Nat.succ_le_succ (hmin j w (markerMatchAt_cons_succ.mp hjw))

lemma head?_dropWhile_false {α : Type} {p : α → Bool} {l : List α} {c : α}
    (h : (l.dropWhile p).head? = some c) : p c = false := by
  have hx := List.head?_dropWhile_not p l
  rw [h] at hx
  exact hx

lemma pyStrip_getLast?_not_space {l : List Char} {c : Char}
    (h : (pyStrip l).getLast? = some c) : isPySpace c = false := by
  unfold pyStrip at h
  rw [List.getLast?_eq_head?_reverse, List.reverse_reverse] at h
  exact head?_dropWhile_false h

lemma matchesIdExact_pyStrip_eq_false {l : List Char}
    (h : ¬ ((pyStrip l).length = 11 ∧ (pyStrip l).all isIdChar = true)) :
    matchesIdExact (pyStrip l) = false := by
  cases hb : matchesIdExact (pyStrip l)
  · rfl
  · exfalso
    unfold matchesIdExact at hb
    rw [Bool.or_eq_true] at hb
    rcases hb with hb | hb
    · simp only [Bool.and_eq_true, beq_iff_eq] at hb
      exact h hb
    · simp only [Bool.and_eq_true, beq_iff_eq] at hb
      obtain ⟨-, hlast⟩ := hb
      exact absurd (pyStrip_getLast?_not_space hlast) (by decide)

lemma matchesIdExact_pyStrip_iff {l : List Char} :
    matchesIdExact (pyStrip l) = true ↔
      (pyStrip l).length = 11 ∧ (pyStrip l).all isIdChar = true := by
  constructor
  · intro hb
    by_contra hc
    rw [matchesIdExact_pyStrip_eq_false hc] at hb
    exact Bool.noConfusion hb
  · rintro ⟨h1, h2⟩
    unfold matchesIdExact
    rw [Bool.or_eq_true]
    left
    simp [h1, h2]

lemma extract_of_short_id {v : String} (h11 : v.data.length = 11)
    (hid : v.data.all isIdChar = true) : extract_video_id v = some v := by
  have hall := List.all_eq_true.mp hid
  have hstrip : pyStrip v.toList = v.data := pyStrip_eq_self_of_all_id hall
  unfold extract_video_id
  rw [hstrip, (matchesIdExact_of_all_id hall).mpr h11, if_pos rfl]

/-- C2: when the trimmed input is not itself an eleven-character identifier,
`extract` returns the captured group of the leftmost marker match, returns
`none` exactly when no marker match exists anywhere, and behaves as the spec
requires on the two concrete example inputs. -/
theorem extract_searches_leftmost (s : String)
    (h : ¬ ((pyStrip s.toList).length = 11 ∧
        (pyStrip s.toList).all isIdChar = true)) :
    (∀ v : List Char, extract_video_id s = some (String.mk v) →
        ∃ i, markerMatchAt (pyStrip s.toList) i v ∧
          ∀ j w, markerMatchAt (pyStrip s.toList) j w → i ≤ j) ∧
    ((extract_video_id s = none) ↔
      ∀ i v, ¬ markerMatchAt (pyStrip s.toList) i v) ∧
    extract_video_id "https://www.youtube.com/watch?v=dQw4w9WgXcQ" =
      some "dQw4w9WgXcQ" ∧
    extract_video_id "not a url" = none := by
  have hfalse : matchesIdExact (pyStrip s.toList) = false :=
    matchesIdExact_pyStrip_eq_false h
  have hext : extract_video_id s = (searchMarkers (pyStrip s.toList)).map String.mk := by
    unfold extract_video_id
    rw [hfalse]
    rfl
  refine ⟨?_, ?_, by decide, by decide⟩
  · intro v hv
    rw [hext] at hv
    obtain ⟨v0, hsm, hmk⟩ := Option.map_eq_some'.mp hv
    have hv0 : v0 = v := by
      have := congrArg String.data hmk
      simpa using this
    subst hv0
    exact searchMarkers_first_match hsm
  · rw [hext, Option.map_eq_none']
    exact searchMarkers_eq_none_iff

/-- Witness for C2 at the concrete input "not a url". -/
theorem extract_searches_leftmost_witness :
    (¬ ((pyStrip ("not a url" : String).toList).length = 11 ∧
        (pyStrip ("not a url" : String).toList).all isIdChar = true)) ∧
    ((∀ v : List Char, extract_video_id "not a url" = some (String.mk v) →
        ∃ i, markerMatchAt (pyStrip ("not a url" : String).toList) i v ∧
          ∀ j w, markerMatchAt (pyStrip ("not a url" : String).toList) j w → i ≤ j) ∧
     ((extract_video_id "not a url" = none) ↔
        ∀ i v, ¬ markerMatchAt (pyStrip ("not a url" : String).toList) i v) ∧
     extract_video_id "https://www.youtube.com/watch?v=dQw4w9WgXcQ" =
       some "dQw4w9WgXcQ" ∧
     extract_video_id "not a url" = none) :=
  ⟨by decide, extract_searches_leftmost "not a url" (by decide)⟩

/-- C9: every successful extraction is an eleven-character string over the
identifier alphabet, and `extract` is idempotent on its successes. -/
theorem extract_success_invariant (s v : String)
    (h : extract_video_id s = some v) :
    v.length = 11 ∧ v.data.all isIdChar = true ∧ extract_video_id v = some v := by
  unfold extract_video_id at h
  by_cases hb : matchesIdExact (pyStrip s.toList) = true
  · rw [if_pos hb] at h
    injection h with h
    obtain ⟨h11, hid⟩ := matchesIdExact_pyStrip_iff.mp hb
    have hdata : v.data = pyStrip s.toList := by rw [← h]
    rw [show v.length = v.data.length from rfl, hdata]
    exact ⟨h11, hdata ▸ hid, extract_of_short_id (hdata ▸ h11) (hdata ▸ hid)⟩
  · rw [if_neg hb] at h
    obtain ⟨v0, hsm, hmk⟩ := Option.map_eq_some'.mp h
    obtain ⟨i, ⟨m, -, -, h11, hid⟩, -⟩ := searchMarkers_first_match hsm
    have hdata : v.data = v0 := by rw [← hmk]
    rw [show v.length = v.data.length from rfl, hdata]
    exact ⟨h11, hdata ▸ hid, extract_of_short_id (hdata ▸ h11) (hdata ▸ hid)⟩

/-- Witness for C9 at a concrete short-URL input. -/
theorem extract_success_invariant_witness :
    extract_video_id "https://youtu.be/dQw4w9WgXcQ" = some "dQw4w9WgXcQ" ∧
    (("dQw4w9WgXcQ" : String).length = 11 ∧
      ("dQw4w9WgXcQ" : String).data.all isIdChar = true ∧
      extract_video_id "dQw4w9WgXcQ" = some "dQw4w9WgXcQ") :=
  ⟨by decide, extract_success_invariant "https://youtu.be/dQw4w9WgXcQ" _ (by decide)⟩

/-- C10: the marker search is an unanchored substring search: in
"xv=abcdefghijk" the sole "v=" is not a URL query parameter, yet `extract`
returns the eleven identifier characters that follow it. -/
theorem extract_unanchored :
    extract_video_id "xv=abcdefghijk" = some "abcdefghijk" := by decide

/-- C3: when the collaborator returns fragments, fetch succeeds with the
fragment texts joined by single spaces in order and the fixed method tag;
on the two-fragment example the transcript is "hello world". -/
theorem fetch_success_concat (collab : String → CollabResult) (vid : String)
    (frags : List Fragment) (h : collab vid = CollabResult.ok frags) :
    fetchTranscript collab vid =
      Envelope.success (pyJoin " " (frags.map Fragment.text))
        "youtube-transcript-api" ∧
    fetchTranscript (fun _ => CollabResult.ok [⟨"hello"⟩, ⟨"world"⟩]) vid =
      Envelope.success "hello world" "youtube-transcript-api" := by
  constructor
  · unfold fetchTranscript
    rw [h]
  · rfl

/-- Witness for C3 with a concrete one-fragment collaborator. -/
theorem fetch_success_concat_witness :
    ((fun _ : String => CollabResult.ok [Fragment.mk "hi"]) "x" =
      CollabResult.ok [Fragment.mk "hi"]) ∧
    (fetchTranscript (fun _ => CollabResult.ok [Fragment.mk "hi"]) "x" =
      Envelope.success (pyJoin " " ([Fragment.mk "hi"].map Fragment.text))
        "youtube-transcript-api" ∧
     fetchTranscript (fun _ => CollabResult.ok [⟨"hello"⟩, ⟨"world"⟩]) "x" =
      Envelope.success "hello world" "youtube-transcript-api") :=
  ⟨rfl, fetch_success_concat _ "x" _ rfl⟩

/-- C4: on any collaborator failure fetch yields a Failure envelope and
never Success: the disabled case maps to the fixed literal message, and any
other failure's message passes through verbatim. -/
theorem fetch_failure_mapping (collab : String → CollabResult) (vid : String)
    (h : ∀ frags, collab vid ≠ CollabResult.ok frags) :
    (∃ e, fetchTranscript collab vid = Envelope.failure e) ∧
    (collab vid = CollabResult.disabled →
      fetchTranscript collab vid =
        Envelope.failure "Transcript is disabled on this video") ∧
    (∀ msg, collab vid = CollabResult.err msg →
      fetchTranscript collab vid = Envelope.failure msg) := by
  refine ⟨?_, ?_, ?_⟩
  · cases hc : collab vid with
    | ok frags => exact absurd hc (h frags)
    | disabled => exact ⟨_, by unfold fetchTranscript; rw [hc]⟩
    | err msg => exact ⟨msg, by unfold fetchTranscript; rw [hc]⟩
  · intro hc
    unfold fetchTranscript
    rw [hc]
  · intro msg hc
    unfold fetchTranscript
    rw [hc]

/-- Witness for C4 with the disabled-transcripts collaborator. -/
theorem fetch_failure_mapping_witness :
    (∀ frags, (fun _ : String => CollabResult.disabled) "x" ≠ CollabResult.ok frags) ∧
    ((∃ e, fetchTranscript (fun _ => CollabResult.disabled) "x" = Envelope.failure e) ∧
     ((fun _ : String => CollabResult.disabled) "x" = CollabResult.disabled →
        fetchTranscript (fun _ => CollabResult.disabled) "x" =
          Envelope.failure "Transcript is disabled on this video") ∧
     (∀ msg, (fun _ : String => CollabResult.disabled) "x" = CollabResult.err msg →
        fetchTranscript (fun _ => CollabResult.disabled) "x" = Envelope.failure msg)) :=
  ⟨fun _ hc => CollabResult.noConfusion hc,
    fetch_failure_mapping _ "x" (fun _ hc => CollabResult.noConfusion hc)⟩

/-- C5: every invocation, whatever branch is taken, prints exactly one JSON
value on stdout, and that value is an object. -/
theorem program_prints_one_json (imp : ImportStatus) (args : List String) :
    ∃ j, (programRun imp args).1 = [j] ∧ Json.isObj j = true := by
  cases imp with
  | missing => exact ⟨_, rfl, rfl⟩
  | available collab =>
    refine ⟨envelopeJson (main collab args), rfl, ?_⟩
    cases main collab args <;> rfl

/-- C6: the exit status is nonzero — namely 1 — exactly on the
missing-library path, which does not depend on the arguments; every other
path exits with status 0. -/
theorem exit_status_zero_unless_import_fails (imp : ImportStatus)
    (args : List String) :
    ((programRun imp args).2 ≠ 0 ↔ imp = ImportStatus.missing) ∧
    ((programRun imp args).2 = 1 ↔ imp = ImportStatus.missing) ∧
    (∀ args', programRun ImportStatus.missing args =
      programRun ImportStatus.missing args') := by
  cases imp with
  | missing =>
    refine ⟨⟨fun _ => rfl, fun _ => ?_⟩, ⟨fun _ => rfl, fun _ => rfl⟩, fun args' => rfl⟩
    simp [programRun]
  | available collab =>
    refine ⟨⟨fun hz => absurd rfl hz, fun he => ImportStatus.noConfusion he⟩,
      ⟨fun hz => ?_, fun he => ImportStatus.noConfusion he⟩, fun args' => rfl⟩
    simp [programRun] at hz

/-- C7: with zero CLI arguments the entry point emits the fixed
missing-argument failure, whatever the extractor and collaborator are, so
neither is invoked. -/
theorem main_no_args (ext : String → Option String)
    (collab : String → CollabResult) :
    mainGen ext collab [] = Envelope.failure "No video URL or ID provided" ∧
    main collab [] = Envelope.failure "No video URL or ID provided" :=
  ⟨rfl, rfl⟩

/-- C8: when the extractor returns none for the supplied argument, the
entry point emits the fixed invalid-id failure and the result does not
depend on the collaborator, so no fetch is attempted. -/
theorem main_invalid_id (ext : String → Option String)
    (collab collab' : String → CollabResult) (url : String) (rest : List String)
    (h : ext url = none) :
    mainGen ext collab (url :: rest) =
      Envelope.failure "Invalid YouTube URL or ID" ∧
    mainGen ext collab (url :: rest) = mainGen ext collab' (url :: rest) := by
  have hred : ∀ cb : String → CollabResult, mainGen ext cb (url :: rest) =
      match ext url with
      | none => Envelope.failure "Invalid YouTube URL or ID"
      | some vid =>
        if vid = "" then Envelope.failure "Invalid YouTube URL or ID"
        else fetchTranscript cb vid := fun cb => rfl
  constructor
  · rw [hred collab, h]
  · rw [hred collab, hred collab', h]

/-- Witness for C8 with the real extractor on "not a url". -/
theorem main_invalid_id_witness :
    extract_video_id "not a url" = none ∧
    (mainGen extract_video_id (fun _ => CollabResult.disabled) ["not a url"] =
        Envelope.failure "Invalid YouTube URL or ID" ∧
     mainGen extract_video_id (fun _ => CollabResult.disabled) ["not a url"] =
        mainGen extract_video_id (fun _ => CollabResult.err "e") ["not a url"]) :=
  ⟨by decide, main_invalid_id extract_video_id (fun _ => CollabResult.disabled)
    (fun _ => CollabResult.err "e") "not a url" [] (by decide)⟩

end TranscriptService
